import Mathlib

/-!
Verification of the pagination-and-cache layer of `src/lib/notion/client.ts`.

The TypeScript module is shallowly embedded: remote responses and the
internal data model become Lean structures, the stateful module-level
caches become an explicit `NotionState` threaded through the operations,
the `while (true)` pagination loop becomes the fuel-indexed `drainAll`,
and JavaScript truthiness defaulting (`x || y`, `x ? a : b`, optional
chaining `x?.f`) is modelled with `Option` and explicit falsy tests.
A transport call that can fail is modelled as an `Option`-returning
fetch function; `async-retry` is modelled by `retryRun`.
-/

namespace NotionClient

/-- One rich-text fragment; only its `plain_text` is consumed by the client. -/
structure RichTextItem where
  plain_text : String
deriving DecidableEq

/-- `SelectProperty` from `../interfaces`: one tag / select option. -/
structure SelectProperty where
  name : String
  color : Option String
deriving DecidableEq

/-- `FileObject` from `../interfaces` (the field `Type` is called `Type'`
because `Type` is reserved in Lean). -/
structure FileObject where
  Type' : String
  Url : String
  ExpiryTime : Option String
deriving DecidableEq

/-- Normalized entity (`Post` in `../interfaces`), as produced by `_buildPost`. -/
structure Post where
  PageId : String
  Title : String
  Slug : String
  Date : String
  LastUpdatedDate : String
  Excerpt : String
  Tags : List SelectProperty
  Status : Option SelectProperty
  FeaturedImage : Option FileObject
  Rank : Int
deriving DecidableEq

/-! Raw remote record shapes (`responses.PageObject`), with every field that
the client accesses through optional chaining made an explicit `Option`. -/

/-- A `title` property; the `title` key itself may be absent/null. -/
structure TitleProperty where
  title : Option (List RichTextItem)
deriving DecidableEq

/-- A `rich_text` property; the `rich_text` key itself may be absent/null. -/
structure RichTextProperty where
  rich_text : Option (List RichTextItem)
deriving DecidableEq

/-- The payload of a `date` property. -/
structure DateValue where
  start : String
deriving DecidableEq

/-- A `date` property; the `date` key may be null. -/
structure DateProperty where
  date : Option DateValue
deriving DecidableEq

/-- The `Category` property may carry a single-select and/or a multi-select
payload; either may be absent/null. -/
structure CategoryProperty where
  select : Option SelectProperty
  multi_select : Option (List SelectProperty)
deriving DecidableEq

/-- The `Status` property: a possibly-null single select. -/
structure StatusProperty where
  select : Option SelectProperty
deriving DecidableEq

/-- The `external` variant of a remote file: a plain URL. -/
structure ExternalFileData where
  url : String
deriving DecidableEq

/-- The `file` (internal, expiring) variant of a remote file. -/
structure InternalFileData where
  url : String
  expiry_time : String
deriving DecidableEq

/-- One element of a `files` array; `external` and `file` are both accessed
through optional chaining in the source. -/
structure RemoteFileData where
  external : Option ExternalFileData
  file : Option InternalFileData
deriving DecidableEq

/-- The `FeaturedImage` property: a `type` tag plus a possibly-absent
`files` array. -/
structure FilesProperty where
  type : String
  files : Option (List RemoteFileData)
deriving DecidableEq

/-- A `number` property; the `number` key may be null. -/
structure NumberProperty where
  number : Option Int
deriving DecidableEq

/-- `pageObject.properties`: every property the normalizer touches, each
possibly absent (optional chaining `prop.X?.…` in the source). -/
structure PageProperties where
  Page : Option TitleProperty
  Slug : Option RichTextProperty
  Date : Option DateProperty
  LastUpdatedDate : Option DateProperty
  Excerpt : Option RichTextProperty
  Category : Option CategoryProperty
  Status : Option StatusProperty
  FeaturedImage : Option FilesProperty
  Rank : Option NumberProperty
deriving DecidableEq

/-- `responses.PageObject`: one raw record of the remote collection. -/
structure PageObject where
  id : String
  properties : PageProperties
deriving DecidableEq

/-- JavaScript `x || y` on an optional string: `undefined`/`null` and `""`
are falsy. -/
def jsStrOr (x : Option String) (y : String) : String :=
  match x with
  | some s => if s = "" then y else s
  | none => y

/-- JavaScript `x || y` on an optional number: `undefined`/`null` and `0`
are falsy. -/
def jsNumOr (x : Option Int) (y : Int) : Int :=
  match x with
  | some n => if n = 0 then y else n
  | none => y

/-- JavaScript `list.map(t => t.plain_text)` joined with the empty
separator. -/
def richTextPlain (ts : List RichTextItem) : String :=
  String.intercalate "" (ts.map (·.plain_text))

/-- `_buildPost` from the source: normalize one raw record into a `Post`,
field by field, with JavaScript truthiness defaults. -/
def _buildPost (pageObject : PageObject) : Post :=
  let prop := pageObject.properties
  let featuredImage : Option FileObject :=
    match prop.FeaturedImage with
    | some fi =>
      match fi.files with
      | some (file :: _) =>
        some
          { Type' := fi.type
            Url := jsStrOr (file.external.map (·.url)) (jsStrOr (file.file.map (·.url)) "")
            ExpiryTime := file.file.map (·.expiry_time) }
      | _ => none
    | none => none
  { PageId := pageObject.id
    Title :=
      match prop.Page.bind (·.title) with
      | some ts => richTextPlain ts
      | none => ""
    Slug :=
      match prop.Slug.bind (·.rich_text) with
      | some ts => richTextPlain ts
      | none => ""
    Date :=
      match prop.Date.bind (·.date) with
      | some d => d.start
      | none => ""
    LastUpdatedDate :=
      match prop.LastUpdatedDate.bind (·.date) with
      | some d => d.start
      | none => ""
    Excerpt :=
      match prop.Excerpt.bind (·.rich_text) with
      | some ts => richTextPlain ts
      | none => ""
    Tags :=
      match prop.Category.bind (·.select) with
      | some sel => [sel]
      | none =>
        match prop.Category.bind (·.multi_select) with
        | some ms => ms
        | none => []
    Status := prop.Status.bind (·.select)
    FeaturedImage := featuredImage
    Rank := jsNumOr (prop.Rank.bind (·.number)) 0 }

/-! Database metadata (`getDatabase`) raw and normalized shapes. -/

/-- The icon of `RetrieveDatabaseResponse`: an emoji icon, or a file-like
icon whose payload sits under the dynamic key `res.icon.type` and whose
`url` is accessed through optional chaining. -/
inductive RetrieveIcon where
  | emoji (emoji : String)
  | file (type : String) (url : Option String)
deriving DecidableEq

/-- The cover of `RetrieveDatabaseResponse`: a `type` tag with the payload
`url` under the dynamic key `res.cover.type`. -/
structure CoverData where
  type : String
  url : Option String
deriving DecidableEq

/-- `responses.RetrieveDatabaseResponse`, restricted to the fields the
client consumes. -/
structure RetrieveDatabaseResponse where
  title : List RichTextItem
  description : List RichTextItem
  icon : Option RetrieveIcon
  cover : Option CoverData
deriving DecidableEq

/-- Normalized icon (`FileObject | Emoji` in `../interfaces`). -/
inductive DbIcon where
  | emojiIcon (Type' : String) (Emoji : String)
  | fileIcon (f : FileObject)
deriving DecidableEq

/-- Normalized database metadata (`Database` in `../interfaces`). -/
structure Database where
  Title : String
  Description : String
  Icon : Option DbIcon
  Cover : Option FileObject
deriving DecidableEq

/-! Pagination: one remote page response and the drain loop. -/

/-- One response of `client.databases.query` / `client.blocks.children.list`:
a batch of results, the `has_more` flag and the opaque `next_cursor`
(cursors are modelled as `Nat`). -/
structure QueryResponse (α : Type) where
  results : List α
  has_more : Bool
  next_cursor : Option Nat
deriving DecidableEq

/-- The `while (true)` pagination loop shared by `getAllPosts` and
`getAllBlocksByBlockId`: fetch the page at `cursor`, append its results,
stop when `has_more` is false, otherwise continue from `next_cursor`.
`fetch` returning `none` is a transport error, which aborts the whole
drain. `fuel` bounds the number of iterations (the source loop has no
bound; every theorem supplies enough fuel for its remote). On success the
drain returns the accumulated records together with the trace of cursors
fetched, in fetch order. -/
def drainAll (fetch : Option Nat → Option (QueryResponse α)) :
    Nat → Option Nat → List α → Option (List α × List (Option Nat))
  | 0, _, _ => none
  | fuel + 1, cursor, acc =>
    match fetch cursor with
    | none => none
    | some res =>
      if res.has_more then
        match drainAll fetch fuel res.next_cursor (acc ++ res.results) with
        | some (out, trace) => some (out, cursor :: trace)
        | none => none
      else
        some (acc ++ res.results, [cursor])

/-! Retry (`async-retry` with `{ retries: numberOfRetry }`). -/

/-- `const numberOfRetry = 2` from the source. -/
def numberOfRetry : Nat := 2

/-- Attempt `op attempt`; on failure, retry with `remaining` retries left.
On success, also report the number of attempts performed. -/
def retryFrom (op : Nat → Option β) : Nat → Nat → Option (β × Nat)
  | attempt, 0 => (op attempt).map (fun b => (b, attempt + 1))
  | attempt, remaining + 1 =>
    match op attempt with
    | some b => some (b, attempt + 1)
    | none => retryFrom op (attempt + 1) remaining

/-- `retry(op, { retries })`: run `op`, retrying at most `retries` times
after failures (so at most `retries + 1` attempts). `op` is indexed by the
attempt number, modelling a transport whose outcome may differ per attempt. -/
def retryRun (op : Nat → Option β) (retries : Nat) : Option (β × Nat) :=
  retryFrom op 0 retries

/-! The module-level mutable caches, threaded explicitly. -/

/-- The two module-level cache variables `postsCache` and `dbCache`. -/
structure NotionState where
  postsCache : Option (List Post)
  dbCache : Option Database
deriving DecidableEq

/-- The state at module load: both caches are `null`. -/
def initialState : NotionState := { postsCache := none, dbCache := none }

/-- `getDatabase`: serve `dbCache` if populated; otherwise retrieve the
database metadata with retry, normalize it, store it in `dbCache` and
return it. The result carries the number of remote attempts performed
(`0` when served from cache); a failure leaves the state unchanged. -/
def getDatabase (retrieve : Nat → Option RetrieveDatabaseResponse) (s : NotionState) :
    Option (Database × Nat) × NotionState :=
  match s.dbCache with
  | some db => (some (db, 0), s)
  | none =>
    match retryRun retrieve numberOfRetry with
    | none => (none, s)
    | some (res, attempts) =>
      let icon : Option DbIcon :=
        match res.icon with
        | none => none
        | some (.emoji e) => some (.emojiIcon "emoji" e)
        | some (.file t u) => some (.fileIcon { Type' := t, Url := u.getD "", ExpiryTime := none })
      let db : Database :=
        { Title := richTextPlain res.title
          Description := richTextPlain res.description
          Icon := icon
          Cover := res.cover.map (fun c =>
            { Type' := c.type, Url := c.url.getD "", ExpiryTime := none }) }
      (some (db, attempts), { s with dbCache := some db })

/-- `getAllPosts`: serve `postsCache` if populated; otherwise drain every
page of the filtered query, map `_buildPost` over the raw records, store
the result in `postsCache` and return it. The result carries the number
of remote page fetches performed (`0` when served from cache); a failed
drain leaves the state unchanged (the cache commit is never reached). -/
def getAllPosts (fetch : Option Nat → Option (QueryResponse PageObject)) (fuel : Nat)
    (s : NotionState) : Option (List Post × Nat) × NotionState :=
  match s.postsCache with
  | some ps => (some (ps, 0), s)
  | none =>
    match drainAll fetch fuel none [] with
    | none => (none, s)
    | some (results, trace) =>
      let posts := results.map _buildPost
      (some (posts, trace.length), { s with postsCache := some posts })

/-- `getPosts(pageSize)`: the first `pageSize` cached entities. -/
def getPosts (fetch : Option Nat → Option (QueryResponse PageObject)) (fuel : Nat)
    (pageSize : Nat) (s : NotionState) : Option (List Post) × NotionState :=
  match getAllPosts fetch fuel s with
  | (some (allPosts, _), s2) => (some (allPosts.take pageSize), s2)
  | (none, s2) => (none, s2)

/-- `getPostBySlug(slug)`: first cached entity with that slug, or null. -/
def getPostBySlug (fetch : Option Nat → Option (QueryResponse PageObject)) (fuel : Nat)
    (slug : String) (s : NotionState) : Option (Option Post) × NotionState :=
  match getAllPosts fetch fuel s with
  | (some (allPosts, _), s2) => (some (allPosts.find? (fun post => post.Slug == slug)), s2)
  | (none, s2) => (none, s2)

/-- `getPostsByTag(tagName, pageSize)`. -/
def getPostsByTag (fetch : Option Nat → Option (QueryResponse PageObject)) (fuel : Nat)
    (tagName : String) (pageSize : Nat) (s : NotionState) :
    Option (List Post) × NotionState :=
  match getAllPosts fetch fuel s with
  | (some (allPosts, _), s2) =>
    (some ((allPosts.filter (fun p => p.Tags.any (fun t => t.name == tagName))).take pageSize), s2)
  | (none, s2) => (none, s2)

/-- JavaScript `Array.prototype.sort(cmp)`: a stable sort placing `a`
before `b` when `cmp a b ≤ 0`; modelled by insertion sort, which is
stable for this placement rule. -/
def jsSort (cmp : α → α → Int) (l : List α) : List α :=
  l.insertionSort (fun a b => cmp a b ≤ 0)

/-- The comparator `(b.Rank || 0) - (a.Rank || 0)` of `getRankedPosts`. -/
def rankCompare (a b : Post) : Int :=
  jsNumOr (some b.Rank) 0 - jsNumOr (some a.Rank) 0

/-- The pure body of `getRankedPosts`:
`.filter(post => !!post.Rank).sort((a,b) => (b.Rank||0)-(a.Rank||0)).slice(0, pageSize)`. -/
def rankedPosts (allPosts : List Post) (pageSize : Nat) : List Post :=
  (jsSort rankCompare (allPosts.filter (fun post => post.Rank != 0))).take pageSize

/-- `getRankedPosts(pageSize)`. -/
def getRankedPosts (fetch : Option Nat → Option (QueryResponse PageObject)) (fuel : Nat)
    (pageSize : Nat) (s : NotionState) : Option (List Post) × NotionState :=
  match getAllPosts fetch fuel s with
  | (some (allPosts, _), s2) => (some (rankedPosts allPosts pageSize), s2)
  | (none, s2) => (none, s2)

/-- The `reduce` step of `getAllTags`: push the tag and its name when the
name was not seen yet (`acc` and `tagNames` grow together). -/
def tagStep (st : List SelectProperty × List String) (tag : SelectProperty) :
    List SelectProperty × List String :=
  if st.2.contains tag.name then st else (st.1 ++ [tag], st.2 ++ [tag.name])

/-- The pure body of `getAllTags`: flatten all tag sequences, keep the
first occurrence of each name, then sort by `localeCompare` on names.
`lc` abstracts `String.prototype.localeCompare` of the build environment. -/
def allTags (lc : String → String → Int) (allPosts : List Post) : List SelectProperty :=
  jsSort (fun a b => lc a.name b.name)
    (((allPosts.flatMap (fun post => post.Tags)).foldl tagStep ([], [])).1)

/-- `getAllTags()`. -/
def getAllTags (lc : String → String → Int)
    (fetch : Option Nat → Option (QueryResponse PageObject)) (fuel : Nat)
    (s : NotionState) : Option (List SelectProperty) × NotionState :=
  match getAllPosts fetch fuel s with
  | (some (allPosts, _), s2) => (some (allTags lc allPosts), s2)
  | (none, s2) => (none, s2)

/-! Blocks (`getAllBlocksByBlockId`). -/

/-- `responses.BlockObject`: one raw child block. `payload` stands for the
value found under the dynamic key `blockObject.type`. -/
structure BlockObject where
  id : String
  type : String
  has_children : Bool
  payload : Option String
deriving DecidableEq

/-- Normalized `Block`: `Id`, `Type` (as `Type'`), `HasChildren`, and the
type-keyed payload copied verbatim. -/
structure Block where
  Id : String
  Type' : String
  HasChildren : Bool
  payload : Option String
deriving DecidableEq

/-- `getAllBlocksByBlockId(blockId)`: drain every page of the child list
of `blockId` (no cache, no filter), then map the block constructor over
the raw records. Also returns the drain's cursor trace. -/
def getAllBlocksByBlockId
    (listChildren : String → Option Nat → Option (QueryResponse BlockObject))
    (fuel : Nat) (blockId : String) : Option (List Block × List (Option Nat)) :=
  match drainAll (listChildren blockId) fuel none [] with
  | none => none
  | some (results, trace) =>
    some (results.map (fun blockObject =>
      { Id := blockObject.id
        Type' := blockObject.type
        HasChildren := blockObject.has_children
        payload := blockObject.payload }), trace)

/-- `getPostsByFilter(filter, pageSize)`: the `filter` argument (of an
arbitrary type `φ`) is never consulted. -/
def getPostsByFilter {φ : Type} (filter : φ)
    (fetch : Option Nat → Option (QueryResponse PageObject)) (fuel : Nat)
    (pageSize : Nat) (s : NotionState) : Option (List Post) × NotionState :=
  match getAllPosts fetch fuel s with
  | (some (allPosts, _), s2) => (some (allPosts.take pageSize), s2)
  | (none, s2) => (none, s2)

/-! A well-formed finite remote: K pages chained by cursors. -/

/-- The fetch function of a remote source holding the given response pages:
the first call (cursor `none`) returns page 0, and cursor `some i`
returns page `i`. -/
def chainFetch (pages : List (QueryResponse α)) : Option Nat → Option (QueryResponse α)
  | none => pages[0]?
  | some i => pages[i]?

/-- The pages form a proper cursor chain: there is at least one page,
every page except the last announces `has_more`, and every non-final
page's `next_cursor` addresses the following page. -/
def WellChained (pages : List (QueryResponse α)) : Prop :=
  pages ≠ [] ∧ ∀ i (h : i < pages.length),
    (pages.get ⟨i, h⟩).has_more = decide (i + 1 < pages.length) ∧
    (i + 1 < pages.length → (pages.get ⟨i, h⟩).next_cursor = some (i + 1))

instance (pages : List (QueryResponse α)) [DecidableEq α] :
    Decidable (WellChained pages) := by
  unfold WellChained
  exact instDecidableAnd

/-- First-occurrence deduplication by tag name, written as a plain
recursion over the flattened tag list; the `reduce` of `getAllTags` is
proved equal to it. `seen` holds the names already kept. -/
def dedupAux (seen : List String) : List SelectProperty → List SelectProperty
  | [] => []
  | t :: ts =>
    if seen.contains t.name then dedupAux seen ts
    else t :: dedupAux (seen ++ [t.name]) ts

/-- Follows the spec's words (§7 retry policy), not the source: the entity
drain with every single page fetch wrapped in `retry` with
`numberOfRetry` retries, the behaviour the claim asserts for
`getAllPosts`. `attempts cursor n` is the transport outcome of attempt
`n` on the page at `cursor`. -/
def getAllPostsClaimRetried
    (attempts : Option Nat → Nat → Option (QueryResponse PageObject))
    (fuel : Nat) (s : NotionState) : Option (List Post × Nat) × NotionState :=
  getAllPosts (fun cursor => (retryRun (attempts cursor) numberOfRetry).map (·.1)) fuel s

/-! Concrete instances used to evaluate the theorems. -/

/-- A raw record with every optional property absent. -/
def emptyPageObject : PageObject :=
  { id := "page-1"
    properties :=
      { Page := none, Slug := none, Date := none, LastUpdatedDate := none
        Excerpt := none, Category := none, Status := none, FeaturedImage := none
        Rank := none } }

/-- A one-page remote holding just `emptyPageObject`. -/
def examplePages : List (QueryResponse PageObject) :=
  [{ results := [emptyPageObject], has_more := false, next_cursor := none }]

/-- The state after successfully draining `examplePages`. -/
def examplePostsState : NotionState :=
  { postsCache := some [_buildPost emptyPageObject], dbCache := none }

/-- A database retrieval that succeeds on every attempt. -/
def exampleRetrieve : Nat → Option RetrieveDatabaseResponse :=
  fun _ => some { title := [], description := [], icon := none, cover := none }

/-- The metadata produced from `exampleRetrieve`. -/
def exampleDb : Database :=
  { Title := "", Description := "", Icon := none, Cover := none }

/-- The state after `getDatabase` succeeded from `exampleRetrieve`. -/
def exampleDbState : NotionState :=
  { postsCache := none, dbCache := some exampleDb }

/-- A transport that always fails. -/
def failFetch : Option Nat → Option (QueryResponse PageObject) :=
  fun _ => none

/-- A transport whose first attempt on the first page fails but whose
later attempts succeed; every retried drain succeeds on it, while a
drain without retry fails. -/
def flakyAttempts : Option Nat → Nat → Option (QueryResponse PageObject) :=
  fun cursor attempt =>
    match cursor, attempt with
    | none, 0 => none
    | none, _ + 1 => some { results := [emptyPageObject], has_more := false, next_cursor := none }
    | some _, _ => none

/-- An entity with the given id and rank and no other content. -/
def mkRankPost (pid : String) (rank : Int) : Post :=
  { PageId := pid, Title := "", Slug := "", Date := "", LastUpdatedDate := ""
    Excerpt := "", Tags := [], Status := none, FeaturedImage := none, Rank := rank }

/-- The rank examples of the spec: ranks `[0, 5, 5, 3]`. -/
def entityE1 : Post := mkRankPost "E1" 0

def entityE2 : Post := mkRankPost "E2" 5

def entityE3 : Post := mkRankPost "E3" 5

def entityE4 : Post := mkRankPost "E4" 3

/-- An entity with the given id and tags and no other content. -/
def mkTagPost (pid : String) (tags : List SelectProperty) : Post :=
  { PageId := pid, Title := "", Slug := "", Date := "", LastUpdatedDate := ""
    Excerpt := "", Tags := tags, Status := none, FeaturedImage := none, Rank := 0 }

def tagA : SelectProperty := { name := "A", color := none }

def tagB : SelectProperty := { name := "B", color := some "blue" }

/-- A second tag object with the same name as `tagB` but different colour;
deduplication must keep `tagB`, the first-seen object. -/
def tagB2 : SelectProperty := { name := "B", color := some "red" }

def tagC : SelectProperty := { name := "C", color := none }

/-- A stand-in for `localeCompare` on the example names. -/
def localeIdx (s : String) : Int :=
  if s == "A" then 0 else if s == "B" then 1 else 2

/-- The comparator derived from `localeIdx`. -/
def exampleLocaleCompare (a b : String) : Int := localeIdx a - localeIdx b

/-- A state whose cache holds the four rank-example entities. -/
def rankedState : NotionState :=
  { postsCache := some [entityE1, entityE2, entityE3, entityE4], dbCache := none }

/-- The two tag-example entities of the spec, with tags `[A,B]` and `[B,C]`
(the second `B` being a different object of the same name). -/
def tagExamplePosts : List Post :=
  [mkTagPost "P1" [tagA, tagB], mkTagPost "P2" [tagB2, tagC]]

/-- A state whose cache holds the tag-example entities. -/
def tagsState : NotionState :=
  { postsCache := some tagExamplePosts, dbCache := none }

/-- A raw record whose `Category` is the single select `{name:"Tech"}` and
which also carries a multi select, to show the shapes are never combined. -/
def techPageObject : PageObject :=
  { id := "page-tech"
    properties :=
      { Page := none, Slug := none, Date := none, LastUpdatedDate := none
        Excerpt := none
        Category := some { select := some { name := "Tech", color := none }
                           multi_select := some [tagA, tagB] }
        Status := none, FeaturedImage := none, Rank := none } }

/-- A raw record whose `Category` is only the multi select `[A, B]`. -/
def multiPageObject : PageObject :=
  { id := "page-multi"
    properties :=
      { Page := none, Slug := none, Date := none, LastUpdatedDate := none
        Excerpt := none
        Category := some { select := none, multi_select := some [tagA, tagB] }
        Status := none, FeaturedImage := none, Rank := none } }

/-- A raw record with a two-element `files` array whose first element has
both an external and an internal source. -/
def filesPageObject : PageObject :=
  { id := "page-files"
    properties :=
      { Page := none, Slug := none, Date := none, LastUpdatedDate := none
        Excerpt := none, Category := none, Status := none
        FeaturedImage := some
          { type := "files"
            files := some
              [{ external := some { url := "https://ext/img.png" }
                 file := some { url := "https://int/img.png", expiry_time := "2026-01-01" } },
               { external := none, file := none }] }
        Rank := none } }

/-- A raw record whose first file is internal only. -/
def internalFilePageObject : PageObject :=
  { id := "page-internal"
    properties :=
      { Page := none, Slug := none, Date := none, LastUpdatedDate := none
        Excerpt := none, Category := none, Status := none
        FeaturedImage := some
          { type := "files"
            files := some
              [{ external := none
                 file := some { url := "https://int/img.png", expiry_time := "2026-01-01" } }] }
        Rank := none } }

/-- Draining a well-chained remote from page `i` with fuel `pages.length - i`
returns the concatenation of the remaining pages' results appended to the
accumulator, and fetches exactly the cursors of pages `i, i+1, …, K-1`,
in order. -/
theorem drainAll_chainFetch (pages : List (QueryResponse α)) (hw : WellChained pages) :
    ∀ n i c acc, n = pages.length - i → i < pages.length →
      chainFetch pages c = pages[i]? →
      drainAll (chainFetch pages) n c acc =
        some (acc ++ ((pages.drop i).map (·.results)).flatten,
              c :: (List.range' (i + 1) (pages.length - i - 1)).map some) := by
  intro n
  induction n with
  | zero => intro i c acc hn hi _; omega
  | succ m ih =>
    intro i c acc hn hi hc
    have hget : pages[i]? = some (pages.get ⟨i, hi⟩) := by
      rw [List.getElem?_eq_getElem hi]; rfl
    have hmore := (hw.2 i hi).1
    have hnext := (hw.2 i hi).2
    have hdrop : pages.drop i = pages.get ⟨i, hi⟩ :: pages.drop (i + 1) := by
      rw [List.drop_eq_getElem_cons hi]; rfl
    by_cases hlt : i + 1 < pages.length
    · have hm : m = pages.length - (i + 1) := by omega
      have htrue : (pages.get ⟨i, hi⟩).has_more = true := by
        rw [hmore]; simpa using hlt
      have := ih (i + 1) (some (i + 1)) (acc ++ (pages.get ⟨i, hi⟩).results) hm hlt rfl
      simp only [drainAll, hc, hget, htrue, if_true, hnext hlt, this,
        Option.some.injEq, Prod.mk.injEq]
      constructor
      · rw [hdrop]
        simp only [List.map_cons, List.flatten_cons, List.append_assoc]
      · have hrange : List.range' (i + 1) (pages.length - i - 1) =
            (i + 1) :: List.range' (i + 2) (pages.length - (i + 1) - 1) := by
          have h1 : pages.length - i - 1 = (pages.length - (i + 1) - 1) + 1 := by omega
          rw [h1, List.range'_succ]
        rw [hrange]
        simp
    · have hfalse : (pages.get ⟨i, hi⟩).has_more = false := by
        rw [hmore]; simpa using hlt
      have hlast : i + 1 = pages.length := by omega
      simp only [drainAll, hc, hget, hfalse, if_false, Bool.false_eq_true,
        Option.some.injEq, Prod.mk.injEq]
      constructor
      · rw [hdrop]
        have : pages.drop (i + 1) = [] := by
          rw [hlast, List.drop_length]
        simp [this]
      · have : pages.length - i - 1 = 0 := by omega
        simp [this]

/-- The posts drain over a well-chained remote, starting from the empty
cache: all pages are concatenated, `_buildPost` is mapped over the result,
the cache is committed, and exactly `pages.length` fetches happen. -/
theorem getAllPosts_chainFetch (pages : List (QueryResponse PageObject))
    (hw : WellChained pages) (s : NotionState) (hs : s.postsCache = none) :
    getAllPosts (chainFetch pages) pages.length s =
      (some (((pages.map (·.results)).flatten).map _buildPost, pages.length),
       { s with postsCache := some (((pages.map (·.results)).flatten).map _buildPost) }) := by
  have hpos : 0 < pages.length := List.length_pos.mpr hw.1
  have hdrain := drainAll_chainFetch pages hw pages.length 0 none [] (by omega) hpos rfl
  simp only [List.drop_zero, List.nil_append] at hdrain
  unfold getAllPosts
  rw [hs]
  simp only [hdrain]
  have : (none :: (List.range' 1 (pages.length - 0 - 1)).map some).length = pages.length := by
    simp [List.length_range']
    omega
  simp only [this]

/-- C1: over a remote returning its records split across K pages, the
drain shared by `getAllPosts` and `getAllBlocksByBlockId` returns the
concatenation of the pages' result lists in remote order (hence exactly
N = sum of page sizes records), starting from the null cursor, following
each response's `next_cursor`, fetching each page exactly once
(`pages.length` distinct cursors, in order), and stopping at the first
`has_more = false`; `getAllPosts` applies `_buildPost` only after this
drain, and `getAllBlocksByBlockId` likewise maps its block constructor
over the drained list. -/
theorem pagination_drain_exhaustive :
    (∀ (α : Type) (pages : List (QueryResponse α)), WellChained pages →
      drainAll (chainFetch pages) pages.length none [] =
        some ((pages.map (·.results)).flatten,
              none :: (List.range' 1 (pages.length - 1)).map some) ∧
      ((pages.map (·.results)).flatten).length =
        (pages.map (fun p => p.results.length)).sum ∧
      (none :: (List.range' 1 (pages.length - 1)).map some).length = pages.length ∧
      ((none :: (List.range' 1 (pages.length - 1)).map some) : List (Option Nat)).Nodup) ∧
    (∀ (pages : List (QueryResponse PageObject)) (s : NotionState), WellChained pages →
      s.postsCache = none →
      getAllPosts (chainFetch pages) pages.length s =
        (some (((pages.map (·.results)).flatten).map _buildPost, pages.length),
         { s with postsCache := some (((pages.map (·.results)).flatten).map _buildPost) })) ∧
    (∀ (pages : List (QueryResponse BlockObject)) (blockId : String), WellChained pages →
      getAllBlocksByBlockId (fun _ => chainFetch pages) pages.length blockId =
        some (((pages.map (·.results)).flatten).map (fun blockObject =>
            { Id := blockObject.id
              Type' := blockObject.type
              HasChildren := blockObject.has_children
              payload := blockObject.payload }),
          none :: (List.range' 1 (pages.length - 1)).map some)) := by
  refine ⟨?_, ?_, ?_⟩
  · intro α pages hw
    have hpos : 0 < pages.length := List.length_pos.mpr hw.1
    have hdrain := drainAll_chainFetch pages hw pages.length 0 none [] (by omega) hpos rfl
    simp only [List.drop_zero, List.nil_append, Nat.sub_zero] at hdrain
    refine ⟨hdrain, ?_, ?_, ?_⟩
    · simp [List.length_flatten, List.map_map, Function.comp_def]
    · simp only [List.length_cons, List.length_map, List.length_range']
      omega
    · simp only [List.nodup_cons, List.mem_map]
      refine ⟨by simp, ?_⟩
      exact (List.nodup_range' 1 (pages.length - 1)).map (Option.some_injective _)
  · intro pages s hw hs
    exact getAllPosts_chainFetch pages hw s hs
  · intro pages blockId hw
    have hpos : 0 < pages.length := List.length_pos.mpr hw.1
    have hdrain := drainAll_chainFetch pages hw pages.length 0 none [] (by omega) hpos rfl
    simp only [List.drop_zero, List.nil_append, Nat.sub_zero] at hdrain
    unfold getAllBlocksByBlockId
    simp only [hdrain]

/-- The drain theorem evaluated on a two-page remote with page sizes 2 and
1: it yields the 3 records in page-concatenation order and fetches the
cursors `null` then `1`, each once. -/
theorem pagination_drain_exhaustive_witness :
    WellChained ([⟨[10, 20], true, some 1⟩, ⟨[30], false, none⟩] : List (QueryResponse Nat)) ∧
    drainAll (chainFetch [⟨[10, 20], true, some 1⟩, ⟨[30], false, none⟩]) 2 none [] =
      some ([10, 20, 30], [none, some 1]) := by
  have hw : WellChained ([⟨[10, 20], true, some 1⟩, ⟨[30], false, none⟩] :
      List (QueryResponse Nat)) := by decide
  have h := (pagination_drain_exhaustive.1 Nat
    [⟨[10, 20], true, some 1⟩, ⟨[30], false, none⟩] hw).1
  exact ⟨hw, h.trans (by decide)⟩

/-- C2: after one successful `getAllPosts` (resp. `getDatabase`) call, any
later call performs zero remote invocations, returns the value of the
first call, and leaves the state untouched; `getPosts` then serves
prefixes of the same cached collection. -/
theorem cache_idempotence :
    (∀ fetch fuel s ps cnt s2,
      getAllPosts fetch fuel s = (some (ps, cnt), s2) →
      (∀ fetch' fuel', getAllPosts fetch' fuel' s2 = (some (ps, 0), s2)) ∧
      (∀ fetch' fuel' n, getPosts fetch' fuel' n s2 = (some (ps.take n), s2))) ∧
    (∀ retrieve s db cnt s2,
      getDatabase retrieve s = (some (db, cnt), s2) →
      ∀ retrieve', getDatabase retrieve' s2 = (some (db, 0), s2)) := by
  constructor
  · intro fetch fuel s ps cnt s2 h
    have hcache : s2.postsCache = some ps := by
      unfold getAllPosts at h
      cases hc : s.postsCache with
      | some ps0 =>
        rw [hc] at h
        simp only [Prod.mk.injEq, Option.some.injEq] at h
        rw [← h.2, hc, h.1.1]
      | none =>
        rw [hc] at h
        cases hd : drainAll fetch fuel none [] with
        | none => rw [hd] at h; simp at h
        | some out =>
          obtain ⟨results, trace⟩ := out
          rw [hd] at h
          simp only [Prod.mk.injEq, Option.some.injEq] at h
          rw [← h.2]
          simp only [← h.1.1]
    have hsecond : ∀ fetch' fuel', getAllPosts fetch' fuel' s2 = (some (ps, 0), s2) := by
      intro fetch' fuel'
      unfold getAllPosts
      rw [hcache]
    refine ⟨hsecond, ?_⟩
    intro fetch' fuel' n
    unfold getPosts
    rw [hsecond fetch' fuel']
  · intro retrieve s db cnt s2 h
    have hcache : s2.dbCache = some db := by
      unfold getDatabase at h
      cases hc : s.dbCache with
      | some db0 =>
        rw [hc] at h
        simp only [Prod.mk.injEq, Option.some.injEq] at h
        rw [← h.2, hc, h.1.1]
      | none =>
        rw [hc] at h
        cases hr : retryRun retrieve numberOfRetry with
        | none => rw [hr] at h; simp at h
        | some out =>
          obtain ⟨res, attempts⟩ := out
          rw [hr] at h
          simp only [Prod.mk.injEq, Option.some.injEq] at h
          rw [← h.2]
          simp only [← h.1.1]
    intro retrieve'
    unfold getDatabase
    rw [hcache]

/-- The cache theorem evaluated on a one-page remote and an
always-succeeding retrieval: the first calls fetch (count 1), the second
calls answer from the caches (count 0) with the same values and states. -/
theorem cache_idempotence_witness :
    getAllPosts (chainFetch examplePages) 1 initialState =
      (some ([_buildPost emptyPageObject], 1), examplePostsState) ∧
    getAllPosts failFetch 0 examplePostsState =
      (some ([_buildPost emptyPageObject], 0), examplePostsState) ∧
    getDatabase exampleRetrieve initialState = (some (exampleDb, 1), exampleDbState) ∧
    getDatabase (fun _ => none) exampleDbState = (some (exampleDb, 0), exampleDbState) := by
  have h1 : getAllPosts (chainFetch examplePages) 1 initialState =
      (some ([_buildPost emptyPageObject], 1), examplePostsState) := by decide
  have h3 : getDatabase exampleRetrieve initialState =
      (some (exampleDb, 1), exampleDbState) := by decide
  exact ⟨h1, (cache_idempotence.1 _ _ _ _ _ _ h1).1 failFetch 0, h3,
    cache_idempotence.2 _ _ _ _ _ h3 (fun _ => none)⟩

/-- C3: a failed drain (resp. retrieval) returns no value and leaves the
state — in particular the `postsCache` / `dbCache` slot — exactly as it
was, so nothing partial is observable; a subsequent call on that state
re-runs the full drain from the first page and commits only then. -/
theorem failure_isolation :
    (∀ fetch fuel s, s.postsCache = none →
      (getAllPosts fetch fuel s).1 = none →
      (getAllPosts fetch fuel s).2 = s ∧
      (∀ pages : List (QueryResponse PageObject), WellChained pages →
        getAllPosts (chainFetch pages) pages.length (getAllPosts fetch fuel s).2 =
          (some (((pages.map (·.results)).flatten).map _buildPost, pages.length),
           { s with postsCache := some (((pages.map (·.results)).flatten).map _buildPost) }))) ∧
    (∀ retrieve s, s.dbCache = none →
      (getDatabase retrieve s).1 = none →
      (getDatabase retrieve s).2 = s) := by
  constructor
  · intro fetch fuel s hs hfail
    have hstate : (getAllPosts fetch fuel s).2 = s := by
      unfold getAllPosts at hfail ⊢
      rw [hs] at hfail ⊢
      cases hd : drainAll fetch fuel none [] with
      | none => rfl
      | some out =>
        obtain ⟨results, trace⟩ := out
        rw [hd] at hfail
        simp at hfail
    refine ⟨hstate, ?_⟩
    intro pages hw
    rw [hstate]
    exact getAllPosts_chainFetch pages hw s hs
  · intro retrieve s hs hfail
    unfold getDatabase at hfail ⊢
    rw [hs] at hfail ⊢
    cases hr : retryRun retrieve numberOfRetry with
    | none => rfl
    | some out =>
      obtain ⟨res, attempts⟩ := out
      rw [hr] at hfail
      simp at hfail

/-- The failure theorem evaluated on an always-failing transport: the call
fails, the cache slots stay empty, and the next call over a healthy
one-page remote drains it in full from the first page. -/
theorem failure_isolation_witness :
    (getAllPosts failFetch 5 initialState).1 = none ∧
    (getAllPosts failFetch 5 initialState).2 = initialState ∧
    getAllPosts (chainFetch examplePages) 1 (getAllPosts failFetch 5 initialState).2 =
      (some ([_buildPost emptyPageObject], 1), examplePostsState) ∧
    (getDatabase (fun _ => none) initialState).1 = none ∧
    (getDatabase (fun _ => none) initialState).2 = initialState := by
  have hfail : (getAllPosts failFetch 5 initialState).1 = none := by decide
  have hw : WellChained examplePages := by decide
  have h := failure_isolation.1 failFetch 5 initialState rfl hfail
  have hdb := failure_isolation.2 (fun _ => none) initialState rfl (by decide)
  refine ⟨hfail, h.1, (h.2 examplePages hw).trans (by decide), by decide, hdb⟩

/-- C4: the normalized `Tags` follow the select-vs-multiselect rule — a
present non-null single select yields exactly the one-element sequence,
otherwise a present multi select is taken unchanged, otherwise the empty
sequence; the two shapes are never combined. -/
theorem tag_select_vs_multiselect (p : PageObject) :
    (∀ sel, p.properties.Category.bind (·.select) = some sel →
      (_buildPost p).Tags = [sel]) ∧
    (p.properties.Category.bind (·.select) = none →
      ∀ ms, p.properties.Category.bind (·.multi_select) = some ms →
        (_buildPost p).Tags = ms) ∧
    (p.properties.Category.bind (·.select) = none →
      p.properties.Category.bind (·.multi_select) = none →
      (_buildPost p).Tags = []) := by
  refine ⟨?_, ?_, ?_⟩
  · intro sel hsel
    simp only [_buildPost]
    rw [hsel]
  · intro hsel ms hms
    simp only [_buildPost]
    rw [hsel, hms]
  · intro hsel hms
    simp only [_buildPost]
    rw [hsel, hms]

/-- The tag rule evaluated on the spec's examples: a single select
`{name:"Tech"}` (even alongside a multi select) yields exactly
`[{name:"Tech"}]`, a multi select `[A,B]` alone is kept unchanged, and a
record with neither yields `[]`. -/
theorem tag_select_vs_multiselect_witness :
    (_buildPost techPageObject).Tags = [{ name := "Tech", color := none }] ∧
    (_buildPost multiPageObject).Tags = [tagA, tagB] ∧
    (_buildPost emptyPageObject).Tags = [] :=
  ⟨(tag_select_vs_multiselect techPageObject).1 _ rfl,
   (tag_select_vs_multiselect multiPageObject).2.1 rfl _ rfl,
   (tag_select_vs_multiselect emptyPageObject).2.2 rfl rfl⟩

/-- An absent or empty `files` array yields a null featured image. -/
theorem buildPost_featuredImage_none (p : PageObject)
    (h : (p.properties.FeaturedImage.bind (·.files)).getD [] = []) :
    (_buildPost p).FeaturedImage = none := by
  simp only [_buildPost]
  cases hfi : p.properties.FeaturedImage with
  | none => rfl
  | some fi =>
    rw [hfi] at h
    have h' : fi.files.getD [] = [] := h
    cases hfs : fi.files with
    | none => simp only [hfi, hfs]
    | some l =>
      rw [hfs] at h'
      simp only [Option.getD_some] at h'
      subst h'
      simp only [hfi, hfs]

/-- C5: `_buildPost` is a total function, and the absence (or nullity) of
each optional remote field yields its documented default: `""` for the
text and date fields, `[]` for tags, `none` for status and featured
image, and `0` for the rank. -/
theorem normalizer_defaults (p : PageObject) :
    (p.properties.Page.bind (·.title) = none → (_buildPost p).Title = "") ∧
    (p.properties.Slug.bind (·.rich_text) = none → (_buildPost p).Slug = "") ∧
    (p.properties.Date.bind (·.date) = none → (_buildPost p).Date = "") ∧
    (p.properties.LastUpdatedDate.bind (·.date) = none →
      (_buildPost p).LastUpdatedDate = "") ∧
    (p.properties.Excerpt.bind (·.rich_text) = none → (_buildPost p).Excerpt = "") ∧
    (p.properties.Category = none → (_buildPost p).Tags = []) ∧
    (p.properties.Status.bind (·.select) = none → (_buildPost p).Status = none) ∧
    ((p.properties.FeaturedImage.bind (·.files)).getD [] = [] →
      (_buildPost p).FeaturedImage = none) ∧
    (p.properties.Rank.bind (·.number) = none → (_buildPost p).Rank = 0) := by
  refine ⟨?_, ?_, ?_, ?_, ?_, ?_, ?_, ?_, ?_⟩
  · intro h; simp only [_buildPost]; rw [h]
  · intro h; simp only [_buildPost]; rw [h]
  · intro h; simp only [_buildPost]; rw [h]
  · intro h; simp only [_buildPost]; rw [h]
  · intro h; simp only [_buildPost]; rw [h]
  · intro h; simp only [_buildPost]; rw [h]; rfl
  · intro h; simp only [_buildPost]; rw [h]
  · exact buildPost_featuredImage_none p
  · intro h; simp only [_buildPost]; rw [h]; rfl

/-- The defaults evaluated on a record with every optional field absent:
every normalized field is its documented default. -/
theorem normalizer_defaults_witness :
    (_buildPost emptyPageObject).Title = "" ∧
    (_buildPost emptyPageObject).Slug = "" ∧
    (_buildPost emptyPageObject).Date = "" ∧
    (_buildPost emptyPageObject).LastUpdatedDate = "" ∧
    (_buildPost emptyPageObject).Excerpt = "" ∧
    (_buildPost emptyPageObject).Tags = [] ∧
    (_buildPost emptyPageObject).Status = none ∧
    (_buildPost emptyPageObject).FeaturedImage = none ∧
    (_buildPost emptyPageObject).Rank = 0 := by
  obtain ⟨h1, h2, h3, h4, h5, h6, h7, h8, h9⟩ := normalizer_defaults emptyPageObject
  exact ⟨h1 rfl, h2 rfl, h3 rfl, h4 rfl, h5 rfl, h6 rfl, h7 rfl, h8 rfl, h9 rfl⟩

/-- C8: the featured image is built from the first element of a non-empty
`files` field: its `Type` is the property's type tag, its `Url` prefers a
non-empty external URL over the internal one, its `ExpiryTime` is the
internal file's expiry timestamp (when an internal source exists), and an
absent or empty `files` field yields `null` for the whole field. -/
theorem featured_image_rule (p : PageObject) :
    ((p.properties.FeaturedImage.bind (·.files)).getD [] = [] →
      (_buildPost p).FeaturedImage = none) ∧
    (∀ fi file rest, p.properties.FeaturedImage = some fi →
      fi.files = some (file :: rest) →
      ∃ img, (_buildPost p).FeaturedImage = some img ∧
        img.Type' = fi.type ∧
        img.ExpiryTime = file.file.map (·.expiry_time) ∧
        (∀ e, file.external = some e → e.url ≠ "" → img.Url = e.url) ∧
        (∀ g, jsStrOr (file.external.map (·.url)) "" = "" → file.file = some g →
          img.Url = g.url) ∧
        (file.external = none → file.file = none → img.Url = "")) := by
  constructor
  · exact buildPost_featuredImage_none p
  · intro fi file rest hfi hfiles
    refine ⟨{ Type' := fi.type
              Url := jsStrOr (file.external.map (·.url)) (jsStrOr (file.file.map (·.url)) "")
              ExpiryTime := file.file.map (·.expiry_time) }, ?_, rfl, rfl, ?_, ?_, ?_⟩
    · simp only [_buildPost, hfi, hfiles]
    · intro e he hne
      simp [he, jsStrOr, hne]
    · intro g hext hg
      cases hx : file.external with
      | none =>
        simp only [hx] at hext ⊢
        simp [hg, jsStrOr]
        intro hgu
        exact hgu.symm
      | some e =>
        rw [hx] at hext
        simp only [jsStrOr, Option.map] at hext
        by_cases hu : e.url = ""
        · simp [hx, hg, jsStrOr, hu]
          intro hgu
          exact hgu.symm
        · rw [if_neg hu] at hext; exact absurd hext hu
    · intro hext hfile
      simp [hext, hfile, jsStrOr]

/-- The file rule evaluated on three records: external URL preferred and
internal expiry propagated; internal URL used when no external source;
absent files field yields null. -/
theorem featured_image_rule_witness :
    (_buildPost emptyPageObject).FeaturedImage = none ∧
    (∃ img, (_buildPost filesPageObject).FeaturedImage = some img ∧
      img.Type' = "files" ∧ img.Url = "https://ext/img.png" ∧
      img.ExpiryTime = some "2026-01-01") ∧
    (∃ img, (_buildPost internalFilePageObject).FeaturedImage = some img ∧
      img.Url = "https://int/img.png" ∧ img.ExpiryTime = some "2026-01-01") := by
  refine ⟨(featured_image_rule emptyPageObject).1 (by decide), ?_, ?_⟩
  · obtain ⟨img, himg, htype, hexp, hext, -, -⟩ :=
      (featured_image_rule filesPageObject).2 _ _ _ rfl rfl
    exact ⟨img, himg, htype, hext _ rfl (by decide), hexp⟩
  · obtain ⟨img, himg, -, hexp, -, hint, -⟩ :=
      (featured_image_rule internalFilePageObject).2 _ _ _ rfl rfl
    exact ⟨img, himg, hint _ rfl rfl, hexp⟩

/-- C10: `getPostsByFilter` never consults its filter argument: two calls
differing only in the filter (even filters of different types) are equal,
each equals `getPosts` with the same page size, and over a populated
cache the result is the first `pageSize` cached entities. -/
theorem filter_argument_ignored :
    (∀ (φ₁ φ₂ : Type) (f1 : φ₁) (f2 : φ₂) fetch fuel n s,
      getPostsByFilter f1 fetch fuel n s = getPostsByFilter f2 fetch fuel n s) ∧
    (∀ (φ : Type) (f : φ) fetch fuel n s,
      getPostsByFilter f fetch fuel n s = getPosts fetch fuel n s) ∧
    (∀ (φ : Type) (f : φ) fetch fuel n s ps,
      s.postsCache = some ps →
      getPostsByFilter f fetch fuel n s = (some (ps.take n), s)) := by
  refine ⟨fun _ _ _ _ _ _ _ _ => rfl, fun _ _ _ _ _ _ => rfl, ?_⟩
  intro φ f fetch fuel n s ps hs
  unfold getPostsByFilter getAllPosts
  rw [hs]

/-- The filter-insensitivity theorem evaluated at two filters of different
types over a populated cache. -/
theorem filter_argument_ignored_witness :
    getPostsByFilter (42 : Nat) failFetch 0 1 examplePostsState =
      getPostsByFilter "any-filter" failFetch 0 1 examplePostsState ∧
    getPostsByFilter (42 : Nat) failFetch 0 1 examplePostsState =
      getPosts failFetch 0 1 examplePostsState ∧
    getPostsByFilter (42 : Nat) failFetch 0 1 examplePostsState =
      (some ([_buildPost emptyPageObject].take 1), examplePostsState) :=
  ⟨filter_argument_ignored.1 Nat String 42 "any-filter" failFetch 0 1 examplePostsState,
   filter_argument_ignored.2.1 Nat 42 failFetch 0 1 examplePostsState,
   filter_argument_ignored.2.2 Nat 42 failFetch 0 1 examplePostsState
     [_buildPost emptyPageObject] rfl⟩

/-- C9 as stated is false of the code: the per-page queries of the entity
drain are not retried. On a transport whose first attempt at the first
page fails but whose retries would succeed, `getAllPosts` (which performs
exactly one attempt per page, `attempt 0`) fails, while the drain the
claim describes — every page fetch wrapped in `retry` with
`numberOfRetry` — succeeds. -/
theorem retry_counterexample :
    (getAllPosts (fun cursor => flakyAttempts cursor 0) 1 initialState).1 = none ∧
    (getAllPostsClaimRetried flakyAttempts 1 initialState).1 =
      some ([_buildPost emptyPageObject], 1) := by
  constructor
  · rfl
  · decide

/-- C9 amended: only the database-metadata retrieval of `getDatabase` is
retried, with at most `numberOfRetry = 2` retries (three attempts) before
the error propagates; each page query of the entity drain in
`getAllPosts` is attempted exactly once, so a single transport failure on
a page immediately fails the whole call regardless of later attempts. -/
theorem retry_bounded :
    (∀ (β : Type) (op : Nat → Option β) (r : β),
      op 0 = none → op 1 = none → op 2 = some r →
      retryRun op numberOfRetry = some (r, 3)) ∧
    (∀ (β : Type) (op : Nat → Option β),
      op 0 = none → op 1 = none → op 2 = none →
      retryRun op numberOfRetry = none) ∧
    (∀ retrieve s, s.dbCache = none → retryRun retrieve numberOfRetry = none →
      getDatabase retrieve s = (none, s)) ∧
    (∀ (attempts : Option Nat → Nat → Option (QueryResponse PageObject)) fuel s,
      s.postsCache = none → attempts none 0 = none →
      (getAllPosts (fun cursor => attempts cursor 0) fuel s).1 = none) := by
  refine ⟨?_, ?_, ?_, ?_⟩
  · intro β op r h0 h1 h2
    unfold retryRun numberOfRetry retryFrom
    rw [h0]
    unfold retryFrom
    rw [h1]
    unfold retryFrom
    rw [h2]
    rfl
  · intro β op h0 h1 h2
    unfold retryRun numberOfRetry retryFrom
    rw [h0]
    unfold retryFrom
    rw [h1]
    unfold retryFrom
    rw [h2]
    rfl
  · intro retrieve s hs hr
    unfold getDatabase
    rw [hs, hr]
  · intro attempts fuel s hs h0
    unfold getAllPosts
    rw [hs]
    cases fuel with
    | zero => rfl
    | succ m =>
      unfold drainAll
      rw [h0]

/-- The amended retry behaviour evaluated concretely: a retrieval failing
twice then succeeding makes `getDatabase` succeed after 3 attempts; one
failing three times propagates; and a first-page first-attempt failure
makes `getAllPosts` fail even though a retry would have succeeded. -/
theorem retry_bounded_witness :
    retryRun (fun attempt => if attempt < 2 then none
      else some ({ title := [], description := [], icon := none, cover := none } :
        RetrieveDatabaseResponse)) numberOfRetry =
      some ({ title := [], description := [], icon := none, cover := none }, 3) ∧
    retryRun (fun attempt => if attempt < 3 then none
      else some ({ title := [], description := [], icon := none, cover := none } :
        RetrieveDatabaseResponse)) numberOfRetry = none ∧
    getDatabase (fun _ => none) initialState = (none, initialState) ∧
    (getAllPosts (fun cursor => flakyAttempts cursor 0) 1 initialState).1 = none := by
  refine ⟨?_, ?_, ?_, ?_⟩
  · exact retry_bounded.1 RetrieveDatabaseResponse _ _ rfl rfl rfl
  · exact retry_bounded.2.1 RetrieveDatabaseResponse _ rfl rfl rfl
  · exact retry_bounded.2.2.1 (fun _ => none) initialState rfl rfl
  · exact retry_bounded.2.2.2 flakyAttempts 1 initialState rfl rfl

theorem jsNumOr_some_zero (n : Int) : jsNumOr (some n) 0 = n := by
  rcases eq_or_ne n 0 with h | h
  · subst h; rfl
  · simp [jsNumOr, h]

theorem rankCompare_nonpos (a b : Post) : rankCompare a b ≤ 0 ↔ b.Rank ≤ a.Rank := by
  unfold rankCompare
  rw [jsNumOr_some_zero, jsNumOr_some_zero]
  omega

/-- C6: over a cached collection, `getRankedPosts` returns the first
`pageSize` elements of a list that is a permutation of the non-zero-rank
entities, is sorted by rank descending, and preserves, within every rank
class, the cached relative order (the filter-by-rank characterization of
a stable sort); the spec's `[0,5,5,3]` example evaluates to
`[E2, E3, E4]`. -/
theorem ranked_posts_spec :
    (∀ fetch fuel n s posts, s.postsCache = some posts →
      ∃ sorted : List Post,
        getRankedPosts fetch fuel n s = (some (sorted.take n), s) ∧
        sorted.Perm (posts.filter (fun post => post.Rank != 0)) ∧
        sorted.Pairwise (fun a b => b.Rank ≤ a.Rank) ∧
        (∀ r : Int, sorted.filter (fun post => post.Rank == r) =
          (posts.filter (fun post => post.Rank != 0)).filter
            (fun post => post.Rank == r)) ∧
        (∀ post ∈ sorted, post.Rank ≠ 0)) ∧
    rankedPosts [entityE1, entityE2, entityE3, entityE4] 10 =
      [entityE2, entityE3, entityE4] := by
  constructor
  · intro fetch fuel n s posts hs
    haveI : IsTotal Post (fun a b => rankCompare a b ≤ 0) :=
      ⟨fun a b => by rw [rankCompare_nonpos, rankCompare_nonpos]; omega⟩
    haveI : IsTrans Post (fun a b => rankCompare a b ≤ 0) :=
      ⟨fun a b c hab hbc => by
        rw [rankCompare_nonpos] at hab hbc ⊢
        omega⟩
    set l := posts.filter (fun post => post.Rank != 0) with hl
    refine ⟨jsSort rankCompare l, ?_, ?_, ?_, ?_, ?_⟩
    · unfold getRankedPosts getAllPosts
      simp only [hs, rankedPosts]
    · exact List.perm_insertionSort _ _
    · exact (List.sorted_insertionSort (fun a b => rankCompare a b ≤ 0) l).imp
        (fun h => (rankCompare_nonpos _ _).mp h)
    · intro r
      have hmemrank : ∀ post ∈ l.filter (fun post => post.Rank == r), post.Rank = r := by
        intro post hp
        exact eq_of_beq (List.mem_filter.mp hp).2
      have hpair : (l.filter (fun post => post.Rank == r)).Pairwise
          (fun a b => rankCompare a b ≤ 0) := by
        refine List.pairwise_of_forall_mem_list ?_
        intro a ha b hb
        rw [rankCompare_nonpos, hmemrank a ha, hmemrank b hb]
      have hsub : (l.filter (fun post => post.Rank == r)).Sublist (jsSort rankCompare l) :=
        List.sublist_insertionSort hpair (List.filter_sublist l)
      have hsub2 := List.Sublist.filter (fun post => post.Rank == r) hsub
      have hflt : (l.filter (fun post => post.Rank == r)).filter
          (fun post => post.Rank == r) = l.filter (fun post => post.Rank == r) :=
        List.filter_eq_self.mpr (fun a ha => (List.mem_filter.mp ha).2)
      rw [hflt] at hsub2
      have hperm : ((jsSort rankCompare l).filter (fun post => post.Rank == r)).Perm
          (l.filter (fun post => post.Rank == r)) :=
        (List.perm_insertionSort _ l).filter _
      exact (hsub2.eq_of_length hperm.length_eq.symm).symm
    · intro post hpost
      have hmem := (List.perm_insertionSort (fun a b => rankCompare a b ≤ 0) l).mem_iff.mp hpost
      have := (List.mem_filter.mp hmem).2
      simpa using this
  · decide

/-- The rank theorem instantiated on the cached collection
`[E1, E2, E3, E4]` with ranks `[0, 5, 5, 3]` and page size 10. -/
theorem ranked_posts_spec_witness :
    ∃ sorted : List Post,
      getRankedPosts failFetch 0 10 rankedState = (some (sorted.take 10), rankedState) ∧
      sorted.Perm ([entityE1, entityE2, entityE3, entityE4].filter
        (fun post => post.Rank != 0)) ∧
      sorted.Pairwise (fun a b => b.Rank ≤ a.Rank) ∧
      (∀ r : Int, sorted.filter (fun post => post.Rank == r) =
        ([entityE1, entityE2, entityE3, entityE4].filter
          (fun post => post.Rank != 0)).filter (fun post => post.Rank == r)) ∧
      (∀ post ∈ sorted, post.Rank ≠ 0) :=
  ranked_posts_spec.1 failFetch 0 10 rankedState
    [entityE1, entityE2, entityE3, entityE4] rfl

theorem contains_false_iff (l : List String) (a : String) :
    l.contains a = false ↔ a ∉ l := by
  constructor
  · intro h hmem
    have hc : l.contains a = true := List.elem_iff.mpr hmem
    rw [h] at hc
    cases hc
  · intro h
    cases hc : l.contains a with
    | false => rfl
    | true => exact absurd (List.elem_iff.mp hc) h

/-- The `reduce` of `getAllTags` equals the recursive first-occurrence
deduplication. -/
theorem tagFold_eq (ts : List SelectProperty) :
    ∀ acc seen, (ts.foldl tagStep (acc, seen)).1 = acc ++ dedupAux seen ts := by
  induction ts with
  | nil => intro acc seen; simp [dedupAux]
  | cons t ts ih =>
    intro acc seen
    simp only [List.foldl_cons, tagStep, dedupAux]
    by_cases h : seen.contains t.name = true
    · simp only [h, if_true]
      exact ih acc seen
    · rw [Bool.not_eq_true] at h
      simp only [h, Bool.false_eq_true, if_false]
      rw [ih (acc ++ [t]) (seen ++ [t.name])]
      simp

theorem mem_dedupAux {t : SelectProperty} :
    ∀ (ts : List SelectProperty) (seen : List String), t ∈ dedupAux seen ts →
      t.name ∉ seen ∧ t ∈ ts := by
  intro ts
  induction ts with
  | nil => intro seen h; simp [dedupAux] at h
  | cons a ts ih =>
    intro seen h
    simp only [dedupAux] at h
    by_cases hc : seen.contains a.name = true
    · rw [if_pos hc] at h
      obtain ⟨h1, h2⟩ := ih seen h
      exact ⟨h1, List.mem_cons_of_mem _ h2⟩
    · rw [Bool.not_eq_true] at hc
      rw [if_neg (by simp only [hc]; exact Bool.false_ne_true)] at h
      rcases List.mem_cons.mp h with rfl | h2
      · exact ⟨(contains_false_iff seen t.name).mp hc, List.mem_cons_self _ _⟩
      · obtain ⟨h1, h3⟩ := ih (seen ++ [a.name]) h2
        rw [List.mem_append] at h1
        push_neg at h1
        exact ⟨h1.1, List.mem_cons_of_mem _ h3⟩

theorem mem_map_name_dedupAux (n : String) :
    ∀ (ts : List SelectProperty) (seen : List String),
      n ∈ (dedupAux seen ts).map (·.name) ↔
        (n ∉ seen ∧ n ∈ ts.map (·.name)) := by
  intro ts
  induction ts with
  | nil => intro seen; simp [dedupAux]
  | cons a ts ih =>
    intro seen
    simp only [dedupAux, List.map_cons, List.mem_cons]
    by_cases hc : seen.contains a.name = true
    · rw [if_pos hc]
      rw [ih seen]
      have ha : a.name ∈ seen := List.elem_iff.mp hc
      constructor
      · rintro ⟨h1, h2⟩
        exact ⟨h1, Or.inr h2⟩
      · rintro ⟨h1, h2 | h3⟩
        · subst h2
          exact absurd ha h1
        · exact ⟨h1, h3⟩
    · rw [Bool.not_eq_true] at hc
      rw [if_neg (by simp only [hc]; exact Bool.false_ne_true)]
      have ha : a.name ∉ seen := (contains_false_iff seen a.name).mp hc
      simp only [List.map_cons, List.mem_cons]
      rw [ih (seen ++ [a.name])]
      rw [List.mem_append, List.mem_singleton]
      by_cases hn : n = a.name
      · subst hn
        simp [ha]
      · simp [hn]

theorem nodup_map_name_dedupAux :
    ∀ (ts : List SelectProperty) (seen : List String),
      ((dedupAux seen ts).map (·.name)).Nodup := by
  intro ts
  induction ts with
  | nil => intro seen; simp [dedupAux]
  | cons a ts ih =>
    intro seen
    simp only [dedupAux]
    by_cases hc : seen.contains a.name = true
    · rw [if_pos hc]
      exact ih seen
    · rw [Bool.not_eq_true] at hc
      rw [if_neg (by simp only [hc]; exact Bool.false_ne_true)]
      simp only [List.map_cons, List.nodup_cons]
      constructor
      · intro hmem
        have := (mem_map_name_dedupAux a.name ts (seen ++ [a.name])).mp hmem
        rw [List.mem_append, List.mem_singleton] at this
        exact this.1 (Or.inr rfl)
      · exact ih (seen ++ [a.name])

theorem find?_dedupAux {t : SelectProperty} :
    ∀ (ts : List SelectProperty) (seen : List String), t ∈ dedupAux seen ts →
      ts.find? (fun x => x.name == t.name) = some t := by
  intro ts
  induction ts with
  | nil => intro seen h; simp [dedupAux] at h
  | cons a ts ih =>
    intro seen h
    simp only [dedupAux] at h
    by_cases hc : seen.contains a.name = true
    · rw [if_pos hc] at h
      have hmem := mem_dedupAux ts seen h
      have hne : a.name ≠ t.name := by
        intro he
        exact hmem.1 (he ▸ List.elem_iff.mp hc)
      have hbeq : (a.name == t.name) = false := by simp [hne]
      simp only [List.find?_cons, hbeq]
      exact ih seen h
    · rw [Bool.not_eq_true] at hc
      rw [if_neg (by simp only [hc]; exact Bool.false_ne_true)] at h
      rcases List.mem_cons.mp h with rfl | h2
      · have hbeq : (t.name == t.name) = true := by simp
        simp only [List.find?_cons, hbeq]
      · have hmem := mem_dedupAux ts (seen ++ [a.name]) h2
        have hne : a.name ≠ t.name := by
          intro he
          refine hmem.1 ?_
          rw [List.mem_append, List.mem_singleton]
          exact Or.inr he.symm
        have hbeq : (a.name == t.name) = false := by simp [hne]
        simp only [List.find?_cons, hbeq]
        exact ih (seen ++ [a.name]) h2

/-- C7: over a cached collection, `getAllTags` returns a permutation of
the first-occurrence deduplication (by name) of the flattened tag
sequences, with pairwise-distinct names, exactly the names occurring in
the flattened sequence, each tag object being the first occurrence of its
name, sorted by the locale comparator on names; the spec's
`[A,B]`, `[B,C]` example evaluates to `[A, B, C]` with the first-seen
`B`. -/
theorem all_tags_spec :
    (∀ (lc : String → String → Int),
      (∀ a b, lc a b ≤ 0 ∨ lc b a ≤ 0) →
      (∀ a b c, lc a b ≤ 0 → lc b c ≤ 0 → lc a c ≤ 0) →
      ∀ fetch fuel s posts, s.postsCache = some posts →
      ∃ out, getAllTags lc fetch fuel s = (some out, s) ∧
        out.Perm (dedupAux [] (posts.flatMap (fun post => post.Tags))) ∧
        (out.map (·.name)).Nodup ∧
        (∀ n, n ∈ out.map (·.name) ↔
          n ∈ (posts.flatMap (fun post => post.Tags)).map (·.name)) ∧
        (∀ t ∈ out, (posts.flatMap (fun post => post.Tags)).find?
          (fun x => x.name == t.name) = some t) ∧
        out.Pairwise (fun a b => lc a.name b.name ≤ 0)) ∧
    allTags exampleLocaleCompare tagExamplePosts = [tagA, tagB, tagC] := by
  constructor
  · intro lc htot htrans fetch fuel s posts hs
    haveI : IsTotal SelectProperty (fun a b => lc a.name b.name ≤ 0) :=
      ⟨fun a b => htot a.name b.name⟩
    haveI : IsTrans SelectProperty (fun a b => lc a.name b.name ≤ 0) :=
      ⟨fun a b c => htrans a.name b.name c.name⟩
    set flat := posts.flatMap (fun post => post.Tags) with hflat
    have hdedup : ((flat.foldl tagStep ([], [])).1 : List SelectProperty) =
        dedupAux [] flat := by
      rw [tagFold_eq flat [] []]
      rfl
    have hout : allTags lc posts = jsSort (fun a b => lc a.name b.name) (dedupAux [] flat) := by
      unfold allTags
      rw [hdedup]
    have hperm : (allTags lc posts).Perm (dedupAux [] flat) := by
      rw [hout]
      exact List.perm_insertionSort _ _
    refine ⟨allTags lc posts, ?_, hperm, ?_, ?_, ?_, ?_⟩
    · unfold getAllTags getAllPosts
      rw [hs]
    · exact ((hperm.map (·.name)).nodup_iff).mpr (nodup_map_name_dedupAux flat [])
    · intro n
      rw [(hperm.map (·.name)).mem_iff, mem_map_name_dedupAux n flat []]
      simp
    · intro t ht
      exact find?_dedupAux flat [] (hperm.mem_iff.mp ht)
    · rw [hout]
      exact List.sorted_insertionSort (fun a b => lc a.name b.name ≤ 0) (dedupAux [] flat)
  · decide

/-- The tag theorem instantiated on the cached entities with tags `[A,B]`
and `[B,C]` under a comparator ordering the names alphabetically. -/
theorem all_tags_spec_witness :
    (∀ a b, exampleLocaleCompare a b ≤ 0 ∨ exampleLocaleCompare b a ≤ 0) ∧
    ∃ out, getAllTags exampleLocaleCompare failFetch 0 tagsState = (some out, tagsState) ∧
      out.Perm (dedupAux [] (tagExamplePosts.flatMap (fun post => post.Tags))) ∧
      (out.map (·.name)).Nodup ∧
      (∀ t ∈ out, (tagExamplePosts.flatMap (fun post => post.Tags)).find?
        (fun x => x.name == t.name) = some t) ∧
      out.Pairwise (fun a b => exampleLocaleCompare a.name b.name ≤ 0) := by
  have htot : ∀ a b, exampleLocaleCompare a b ≤ 0 ∨ exampleLocaleCompare b a ≤ 0 := by
    intro a b
    unfold exampleLocaleCompare
    omega
  have htrans : ∀ a b c, exampleLocaleCompare a b ≤ 0 → exampleLocaleCompare b c ≤ 0 →
      exampleLocaleCompare a c ≤ 0 := by
    intro a b c
    unfold exampleLocaleCompare
    omega
  obtain ⟨out, h1, h2, h3, -, h5, h6⟩ :=
    all_tags_spec.1 exampleLocaleCompare htot htrans failFetch 0 tagsState
      tagExamplePosts rfl
  exact ⟨htot, out, h1, h2, h3, h5, h6⟩

end NotionClient
